import Mathlib

/-!
Verification of the IsoQuant read-to-isoform assignment engine.

The repository provides `src/alignment_processor.py` (embedded directly below
as `processAlignment` / `process_single_file`) and the unit tests
`src/tests/long_read_assigner/test_long_read_assigner.py`.  The module under
test, `src/long_read_assigner.py`, is not part of the source tree, so the
profile matcher, the junction comparator and the contradiction detector are
modelled from the specification, with every behaviour pinned by the unit
tests that are present.
-/

/-! ## Profile matcher (spec-modelled) -/

/-- An isoform id paired with its distance to the read profile
(`IsoformDiff` in the tests).  Isoform ids are numbered: the tests' string
ids `id1`, `id2`, `id3` become `1`, `2`, `3`. -/
structure IsoformDiff where
  isoform_id : Nat
  diff : Nat
deriving DecidableEq, Repr

/-- Error raised by the matcher on degenerate profiles
(`ProfileLengthMismatch` in the spec, an `AssertionError` in the tests). -/
inductive ProfileError where
  | profile_length_mismatch
deriving DecidableEq, Repr

/-- Modelled from the spec: hint handling of `match_profile`
(`src/long_read_assigner.py` is absent from the source tree).  A supplied
hint restricts candidates to its members; no hint admits every candidate. -/
def inHint : Option (List Nat) → Nat → Bool
  | Option.none, _ => true
  | Option.some h, i => decide (i ∈ h)

/-- Modelled from the spec and the unit tests: the per-position distance
between a read profile and an isoform profile.  A position contributes 1
exactly when both values are non-zero and differ (the both-present Hamming
distance; `test_no_equals` forces the read = -1, isoform = -2 case to
contribute 1). -/
def profileDiff : List Int → List Int → Nat
  | r :: rs, s :: ss => (if r ≠ 0 ∧ s ≠ 0 ∧ r ≠ s then 1 else 0) + profileDiff rs ss
  | _, _ => 0

/-- Ranking order on `IsoformDiff`: ascending distance, ties broken by
ascending isoform id. -/
def diffLE (a b : IsoformDiff) : Prop :=
  a.diff < b.diff ∨ (a.diff = b.diff ∧ a.isoform_id ≤ b.isoform_id)

instance : DecidableRel diffLE := fun a b =>
  if h : a.diff < b.diff ∨ (a.diff = b.diff ∧ a.isoform_id ≤ b.isoform_id) then
    Decidable.isTrue h
  else
    Decidable.isFalse h

instance : IsTotal IsoformDiff diffLE where
  total a b := by
    unfold diffLE
    omega

instance : IsTrans IsoformDiff diffLE where
  trans a b c hab hbc := by
    unfold diffLE at *
    omega

/-- Modelled from the spec: `match_profile` of `src/long_read_assigner.py`
(absent from the source tree).  Degenerate input (an empty read profile, or
any isoform profile whose length differs from the read profile's) is
rejected; otherwise every candidate admitted by the hint is scored with
`profileDiff` and the result is sorted by distance, ties by isoform id. -/
def match_profile (rp : List Int) (profiles : List (Nat × List Int))
    (hint : Option (List Nat)) : Except ProfileError (List IsoformDiff) :=
  if rp.isEmpty ∨ profiles.any (fun p => decide (p.2.length ≠ rp.length)) then
    Except.error ProfileError.profile_length_mismatch
  else
    Except.ok (List.insertionSort diffLE
      (profiles.filterMap (fun p =>
        if inHint hint p.1 then Option.some ⟨p.1, profileDiff rp p.2⟩ else Option.none)))

/-- Modelled from the spec: `find_matching_isoforms` of
`src/long_read_assigner.py` (absent from the source tree).  The ids of the
distance-0 entries of `match_profile`, sorted ascending. -/
def find_matching_isoforms (rp : List Int) (profiles : List (Nat × List Int))
    (hint : Option (List Nat)) : Except ProfileError (List Nat) :=
  (match_profile rp profiles hint).map (fun ds =>
    List.insertionSort (· ≤ ·)
      ((ds.filter (fun d => decide (d.diff = 0))).map IsoformDiff.isoform_id))

/-- Modelled from the spec: the per-position distance rule exactly as the
claim derived from the spec states it — read = 1 with isoform not 1, or
read = -1 with isoform = 1, contributes 1, every other combination 0.  Used
only to exhibit that the repository's own tests contradict this rule. -/
def claimDistance : List Int → List Int → Nat
  | r :: rs, s :: ss =>
      (if (r = 1 ∧ s ≠ 1) ∨ (r = -1 ∧ s = 1) then 1 else 0) + claimDistance rs ss
  | _, _ => 0

/-! ## Junction comparator (spec-modelled) -/

/-- A junction or region: a genomic interval `(start, end)`. -/
abbrev J : Type := Nat × Nat

/-- The closed enumeration of match event subtypes named by the spec. -/
inductive MatchEventSubtype where
  | none
  | mono_exon_match
  | mono_exonic
  | unspliced_intron_retention
  | incomplete_intron_retention_left
  | incomplete_intron_retention_right
  | intron_retention
  | extra_intron
  | extra_intron_known
  | extra_intron_flanking_left
  | extra_intron_flanking_right
  | exon_skipping_novel_intron
  | exon_gain_novel
  | intron_shift
  | alt_donor_acceptor
deriving DecidableEq, Repr

/-- One typed observation about a single junction or region.  `pos` is the
genomic start coordinate of the junction the event concerns (the region
start for whole-read events); it witnesses the genomic order of the
emitted events. -/
structure MatchEvent where
  event_type : MatchEventSubtype
  pos : Nat
deriving DecidableEq, Repr

/-- Build a match event. -/
def mkEv (t : MatchEventSubtype) (p : Nat) : MatchEvent := ⟨t, p⟩

/-- Two junctions are equal when both boundaries agree within `delta`. -/
def equal_ranges (delta : Nat) (a b : J) : Bool :=
  decide (Nat.dist a.1 b.1 ≤ delta ∧ Nat.dist a.2 b.2 ≤ delta)

/-- Two intervals overlap (closed-interval intersection is non-empty). -/
def overlaps (a b : J) : Bool :=
  decide (a.1 ≤ b.2 ∧ b.1 ≤ a.2)

/-- The interval `outer` fully contains `inner`. -/
def containsRange (outer inner : J) : Bool :=
  decide (outer.1 ≤ inner.1 ∧ inner.2 ≤ outer.2)

/-- Whether `a` also overlaps the next junction of `l` (so `a` spans at
least two junctions of the other structure). -/
def spansNext (a : J) : List J → Bool
  | [] => false
  | b :: _ => overlaps a b

/-- Modelled from the spec: classification of an unmatched read junction
(`src/long_read_assigner.py` is absent from the source tree).  A read
junction past the rightmost isoform junction is flanking right, one before
the leftmost isoform junction is flanking left; otherwise it is an extra
intron, known when it matches the gene's known intron set within `delta`
(pinned by `test_extra_intron_out_right`, `test_extra_intron_out_left`,
`test_extra_intron` and `test_extra_intron_known`). -/
def classifyExtra (leftFlank isoRemaining : Bool) (delta : Nat) (known : List J)
    (rj : J) : MatchEventSubtype :=
  if !isoRemaining then MatchEventSubtype.extra_intron_flanking_right
  else if leftFlank then MatchEventSubtype.extra_intron_flanking_left
  else if known.any (fun kj => equal_ranges delta rj kj) then
    MatchEventSubtype.extra_intron_known
  else MatchEventSubtype.extra_intron

/-- Modelled from the spec: classification of a single disagreeing junction
pair.  Both boundary shifts within the configured tolerance give an intron
shift; the tolerance is the larger of `delta` and the `max_intron_shift`
parameter, so that both the spec's rule (shifts within `delta`) and its
worked example (shifts of 5 under `delta = 3`, `max_intron_shift = 10`,
pinned by `TestDetectContradictionType.test`) hold.  One boundary matching
within `delta` while the other differs beyond it is an alternative
donor/acceptor site; anything else is reclassified as an extra intron. -/
def classifyContradiction (delta maxShift : Nat) (rj ij : J) : MatchEventSubtype :=
  if Nat.dist rj.1 ij.1 ≤ max delta maxShift ∧ Nat.dist rj.2 ij.2 ≤ max delta maxShift then
    MatchEventSubtype.intron_shift
  else if (Nat.dist rj.1 ij.1 ≤ delta ∧ delta < Nat.dist rj.2 ij.2) ∨
      (delta < Nat.dist rj.1 ij.1 ∧ Nat.dist rj.2 ij.2 ≤ delta) then
    MatchEventSubtype.alt_donor_acceptor
  else MatchEventSubtype.extra_intron

/-- Modelled from the spec: the single event emitted for a read with no
junctions (`src/long_read_assigner.py` is absent from the source tree).
A mono-exonic isoform gives a mono-exon match; an isoform intron fully
inside the read region (with `delta` margin) gives unspliced intron
retention; an isoform intron cut by the read region's right or left edge by
more than the minimal absence overlap gives the corresponding incomplete
retention; otherwise the read is mono-exonic.  Pinned by the five
mono-exon tests of `TestCompareJunctions`. -/
def monoExonEvent (delta minAbsenceOverlap : Nat) (readR : J) (isoJ : List J) :
    MatchEvent :=
  if isoJ.isEmpty then mkEv MatchEventSubtype.mono_exon_match readR.1
  else if isoJ.any (fun ij => decide (readR.1 + delta ≤ ij.1 ∧ ij.2 + delta ≤ readR.2)) then
    mkEv MatchEventSubtype.unspliced_intron_retention readR.1
  else if isoJ.any (fun ij =>
      decide (readR.1 < ij.1 ∧ ij.1 + minAbsenceOverlap < readR.2 ∧ readR.2 < ij.2)) then
    mkEv MatchEventSubtype.incomplete_intron_retention_right readR.1
  else if isoJ.any (fun ij =>
      decide (ij.1 < readR.1 ∧ readR.1 + minAbsenceOverlap < ij.2 ∧ ij.2 < readR.2)) then
    mkEv MatchEventSubtype.incomplete_intron_retention_left readR.1
  else mkEv MatchEventSubtype.mono_exonic readR.1

/-- Modelled from the spec: the two-pointer merge of the read and isoform
junction lists (`src/long_read_assigner.py` is absent from the source
tree).  Junction pairs equal within `delta` are consumed silently; an
isoform junction passed by the read and covered by the read region is an
intron retention; an unmatched read junction is classified by
`classifyExtra`; overlapping but unequal junctions give exon skipping when
the read junction spans several isoform junctions, exon gain in the
converse case, and otherwise a single-pair contradiction classified by
`classifyContradiction`.  `fuel` bounds the recursion; every step consumes
at least one junction, so `readJ.length + isoJ.length` fuel is exact.
`leftFlank` records that no isoform junction has been consumed yet. -/
def collectEventsF (delta maxShift : Nat) (known : List J) (readR : J) :
    Nat → Bool → List J → List J → List MatchEvent
  | 0, _, _, _ => []
  | _ + 1, _, [], [] => []
  | fuel + 1, flag, [], ij :: itl =>
    if containsRange readR ij then
      mkEv MatchEventSubtype.intron_retention ij.1 ::
        collectEventsF delta maxShift known readR fuel flag [] itl
    else collectEventsF delta maxShift known readR fuel flag [] itl
  | fuel + 1, flag, rj :: rtl, [] =>
    mkEv (classifyExtra flag false delta known rj) rj.1 ::
      collectEventsF delta maxShift known readR fuel flag rtl []
  | fuel + 1, flag, rj :: rtl, ij :: itl =>
    if equal_ranges delta rj ij then
      collectEventsF delta maxShift known readR fuel false rtl itl
    else if overlaps rj ij then
      if spansNext rj itl then
        mkEv MatchEventSubtype.exon_skipping_novel_intron (min rj.1 ij.1) ::
          collectEventsF delta maxShift known readR fuel false rtl
            (itl.dropWhile (fun j => overlaps rj j))
      else if spansNext ij rtl then
        mkEv MatchEventSubtype.exon_gain_novel (min rj.1 ij.1) ::
          collectEventsF delta maxShift known readR fuel false
            (rtl.dropWhile (fun j => overlaps ij j)) itl
      else
        mkEv (classifyContradiction delta maxShift rj ij) (min rj.1 ij.1) ::
          collectEventsF delta maxShift known readR fuel false rtl itl
    else if ij.2 < rj.1 then
      (if containsRange readR ij then [mkEv MatchEventSubtype.intron_retention ij.1]
        else []) ++
        collectEventsF delta maxShift known readR fuel false (rj :: rtl) itl
    else
      mkEv (classifyExtra flag true delta known rj) rj.1 ::
        collectEventsF delta maxShift known readR fuel flag rtl (ij :: itl)

/-- Modelled from the spec: `compare_junctions` of
`src/long_read_assigner.py` (absent from the source tree).  A read without
junctions yields the single mono-exon event; otherwise the merge runs, and
when it finds nothing (all pairs matched) the single no-contradiction
event is emitted. -/
def compare_junctions (delta maxShift minAbsenceOverlap : Nat) (known : List J)
    (readJ : List J) (readR : J) (isoJ : List J) (isoR : J) : List MatchEvent :=
  if readJ.isEmpty then [monoExonEvent delta minAbsenceOverlap readR isoJ]
  else if (collectEventsF delta maxShift known readR
      (readJ.length + isoJ.length) true readJ isoJ).isEmpty then
    [mkEv MatchEventSubtype.none readR.1]
  else
    collectEventsF delta maxShift known readR
      (readJ.length + isoJ.length) true readJ isoJ

/-- Modelled from the spec: `detect_contradiction_type` of
`src/long_read_assigner.py` (absent from the source tree).  Each
contradictory pair of junction index ranges is classified independently: a
single read junction against a single isoform junction goes through
`classifyContradiction`; a range of several isoform junctions is exon
skipping, several read junctions are a gained exon. -/
def detect_contradiction_type (delta maxShift : Nat) (readR : J) (readJ : List J)
    (isoR : J) (isoJ : List J) (pairs : List ((Nat × Nat) × (Nat × Nat))) :
    List MatchEvent :=
  pairs.map (fun pr =>
    let rj := readJ.getD pr.1.1 (0, 0)
    let ij := isoJ.getD pr.2.1 (0, 0)
    if pr.1.2 = pr.1.1 ∧ pr.2.2 = pr.2.1 then
      mkEv (classifyContradiction delta maxShift rj ij) (min rj.1 ij.1)
    else if pr.2.1 < pr.2.2 then
      mkEv MatchEventSubtype.exon_skipping_novel_intron (min rj.1 ij.1)
    else mkEv MatchEventSubtype.exon_gain_novel (min rj.1 ij.1))

/-! ## Alignment processor (`src/alignment_processor.py`) -/

/-- The fields of a fetched alignment that `process_single_file` inspects.
`read_exons` is the exon block list decoded from the CIGAR string by the
external `get_read_blocks` collaborator (out of scope per the spec). -/
structure AlignmentRec where
  query_name : String
  reference_id : Int
  is_supplementary : Bool
  is_secondary : Bool
  read_exons : List (Nat × Nat)
deriving DecidableEq, Repr

/-- The slice of `ReadAssignment` that `process_single_file` determines:
the read id, whether an assignment object was produced by the assigner
(`False` models the `ReadAssignment(read_id, None)` of the unmapped
branch), and, for assigned reads, the originating alignment's decoded
`(read_start, read_end)` bounds. -/
structure ReadAssignmentR where
  read_id : String
  has_assignment : Bool
  bounds : Option (Nat × Nat)
deriving DecidableEq, Repr

/-- The mutable state of `LongReadAlignmentProcessor.process_single_file`:
the per-file `processed_reads` set, the `assignment_storage` list, and an
instrumentation trace of the read ids passed to
`assigner.assign_to_isoform` (the assigner itself is external:
`src/long_read_assigner.py` is absent from the source tree). -/
structure ProcState where
  processed_reads : List (String × Nat × Nat)
  assignment_storage : List ReadAssignmentR
  assigner_calls : List String
deriving DecidableEq, Repr

/-- The `(read_id, read_start, read_end)` triple of an alignment, as
`AlignmentInfo` computes it: the start of the first and the end of the last
decoded exon; `none` when the alignment decoded to no exons. -/
def tripleOf (a : AlignmentRec) : Option (String × Nat × Nat) :=
  match a.read_exons with
  | [] => Option.none
  | e :: es => Option.some (a.query_name, e.1, (es.getLastD e).2)

/-- The loop body of `process_single_file` for one fetched alignment
(`src/alignment_processor.py`, lines 110-169).  An unmapped alignment
(`reference_id == -1`) appends `ReadAssignment(read_id, None)` at once;
supplementary alignments and, under `no_secondary`, secondary alignments
are skipped; an alignment with no decoded exons is dropped with a warning;
a `(read_id, read_start, read_end)` triple already processed is skipped;
otherwise the triple is recorded, the assigner is invoked and its
`ReadAssignment` is appended.  Modelled from the spec: the assigner
(absent from the source tree) returns one `ReadAssignment` for the read,
abstracted here to the fields the claims mention. -/
def processAlignment (no_secondary : Bool) (st : ProcState) (a : AlignmentRec) :
    ProcState :=
  if a.reference_id = -1 then
    { st with assignment_storage :=
        st.assignment_storage ++ [⟨a.query_name, false, Option.none⟩] }
  else if a.is_supplementary then st
  else if no_secondary && a.is_secondary then st
  else
    match tripleOf a with
    | Option.none => st
    | Option.some t =>
      if t ∈ st.processed_reads then st
      else
        { processed_reads := t :: st.processed_reads,
          assignment_storage :=
            st.assignment_storage ++ [⟨t.1, true, Option.some (t.2.1, t.2.2)⟩],
          assigner_calls := st.assigner_calls ++ [t.1] }

/-- The whole of `process_single_file` over the concatenated fetch results of the genic
regions: a left fold of the loop body starting from an empty
`processed_reads` set and empty storage. -/
def process_single_file (no_secondary : Bool) (alignments : List AlignmentRec) :
    ProcState :=
  alignments.foldl (processAlignment no_secondary) ⟨[], [], []⟩

/-- How many stored assignments originate from a given
`(read_id, read_start, read_end)` triple.  Assignments of the unmapped
branch carry no bounds and match no triple. -/
def countTriple (storage : List ReadAssignmentR) (t : String × Nat × Nat) : Nat :=
  storage.countP (fun ra =>
    decide (ra.read_id = t.1 ∧ ra.bounds = Option.some (t.2.1, t.2.2)))

/-- The deduplication invariant of the processor state: every triple is
stored at most once, and triples outside `processed_reads` are not stored
at all. -/
def DedupInv (st : ProcState) : Prop :=
  ∀ t : String × Nat × Nat,
    countTriple st.assignment_storage t ≤ 1 ∧
    (t ∉ st.processed_reads → countTriple st.assignment_storage t = 0)

/-! ## Test fixtures (from `src/tests/long_read_assigner/test_long_read_assigner.py`) -/

/-- The known intron set of `TestCompareJunctions.gene_info`. -/
def knownIntrons : List J := [(50, 60), (80, 100), (80, 110), (200, 210)]

/-- Isoform profiles of the first `test_all_equals` case. -/
def profilesAllEq : List (Nat × List Int) := [(1, [-1, 1, -1, -1]), (2, [-1, 1, -1, -2])]

/-- Isoform profiles of the second `test_some_equals` case. -/
def profilesSomeEq : List (Nat × List Int) :=
  [(1, [-1, 1, 1, 1, -2]), (2, [-2, 1, 1, -1, -2]), (3, [1, -1, 1, -2, -2])]

/-- Isoform profiles of the first `test_hint` case. -/
def profilesHint : List (Nat × List Int) :=
  [(1, [-1, 1, 1, -1]), (2, [1, 1, 1, -1]), (3, [-1, -1, -1, 1])]

/-- Isoform profiles of `test_different_length` (id2 is one short). -/
def profilesDiffLen : List (Nat × List Int) :=
  [(1, [-1, 1, 1, -1]), (2, [-1, 1, -2]), (3, [-1, 1, 1, 1])]

/-! ## Helper lemmas for the profile matcher -/

theorem filterMap_hint_none (rp : List Int) (profiles : List (Nat × List Int)) :
    profiles.filterMap (fun p =>
        if inHint Option.none p.1 then Option.some (IsoformDiff.mk p.1 (profileDiff rp p.2))
        else Option.none)
      = profiles.map (fun p => IsoformDiff.mk p.1 (profileDiff rp p.2)) := by
  induction profiles with
  | nil => rfl
  | cons p ps ih =>
    rw [List.filterMap_cons, ih]
    rfl

theorem match_profile_ok (rp : List Int) (profiles : List (Nat × List Int))
    (hint : Option (List Nat)) (h1 : rp ≠ [])
    (h2 : ∀ p ∈ profiles, (p.2).length = rp.length) :
    match_profile rp profiles hint = Except.ok (List.insertionSort diffLE
      (profiles.filterMap (fun p =>
        if inHint hint p.1 then Option.some (IsoformDiff.mk p.1 (profileDiff rp p.2))
        else Option.none))) := by
  unfold match_profile
  rw [if_neg]
  intro hcond
  rcases hcond with hc | hc
  · exact h1 (List.isEmpty_iff.mp hc)
  · rw [List.any_eq_true] at hc
    obtain ⟨p, hp, hlen⟩ := hc
    simp only [decide_eq_true_eq] at hlen
    exact hlen (h2 p hp)

theorem match_profile_ok_inv (rp : List Int) (profiles : List (Nat × List Int))
    (hint : Option (List Nat)) (r : List IsoformDiff)
    (h : match_profile rp profiles hint = Except.ok r) :
    r = List.insertionSort diffLE (profiles.filterMap (fun p =>
      if inHint hint p.1 then Option.some (IsoformDiff.mk p.1 (profileDiff rp p.2))
      else Option.none)) := by
  unfold match_profile at h
  split at h
  · exact absurd h (by simp)
  · simpa using h.symm

theorem profileDiff_eq_count (rp : List Int) :
    ∀ ip : List Int, ip.length = rp.length →
      profileDiff rp ip = (List.range rp.length).countP (fun i =>
        decide (rp.getD i 0 ≠ 0 ∧ ip.getD i 0 ≠ 0 ∧ rp.getD i 0 ≠ ip.getD i 0)) := by
  induction rp with
  | nil => intro ip h; simp [profileDiff]
  | cons r rs ih =>
    intro ip h
    cases ip with
    | nil => simp at h
    | cons s ss =>
      simp only [List.length_cons, Nat.succ.injEq] at h
      have hpd : profileDiff (r :: rs) (s :: ss) =
          (if r ≠ 0 ∧ s ≠ 0 ∧ r ≠ s then 1 else 0) + profileDiff rs ss := rfl
      rw [hpd, ih ss h]
      simp only [List.length_cons, List.range_succ_eq_map, List.countP_cons, List.countP_map]
      have hhead : (decide ((r :: rs).getD 0 0 ≠ 0 ∧ (s :: ss).getD 0 0 ≠ 0 ∧
          (r :: rs).getD 0 0 ≠ (s :: ss).getD 0 0)) = decide (r ≠ 0 ∧ s ≠ 0 ∧ r ≠ s) := by
        simp
      have htail : ((fun i => decide ((r :: rs).getD i 0 ≠ 0 ∧ (s :: ss).getD i 0 ≠ 0 ∧
          (r :: rs).getD i 0 ≠ (s :: ss).getD i 0)) ∘ Nat.succ)
          = fun i => decide (rs.getD i 0 ≠ 0 ∧ ss.getD i 0 ≠ 0 ∧ rs.getD i 0 ≠ ss.getD i 0) := by
        funext i
        simp [List.getD_cons_succ]
      rw [hhead, htail]
      by_cases hc : r ≠ 0 ∧ s ≠ 0 ∧ r ≠ s
      · simp [hc, Nat.add_comm]
      · simp [hc]

/-! ## Claims about the profile matcher -/

/-- Claim C1, counterexample: the claimed per-position distance rule (read=1
with isoform not 1, or read=-1 with isoform=1, everything else 0) does not
describe `match_profile`.  On the first `test_no_equals` case of the
repository's own test suite, the read profile `[-1,1,-1,0]` against isoform
profile `[-2,1,-1,-1]` is expected at distance 1 (the position with read=-1
and isoform=-2 counts), while the claim's rule yields 0. -/
theorem match_profile_rule_counterexample :
    match_profile [-1, 1, -1, 0] [(1, [-2, 1, -1, -1])] Option.none
      = Except.ok [IsoformDiff.mk 1 1] ∧
    claimDistance [-1, 1, -1, 0] [-2, 1, -1, -1] = 0 ∧
    (1 : Nat) ≠ 0 :=
  ⟨rfl, by decide, by decide⟩

/-- Claim C1 (amended): for a non-empty read profile and isoform profiles of
identical length, `match_profile` returns one `IsoformDiff` per candidate
isoform, whose distance is the count of positions at which both profiles
are non-zero and differ, and the list is ordered ascending by distance with
ties broken by ascending isoform id. -/
theorem match_profile_amended_ranking (rp : List Int)
    (profiles : List (Nat × List Int)) (h1 : rp ≠ [])
    (h2 : ∀ p ∈ profiles, (p.2).length = rp.length) :
    ∃ r, match_profile rp profiles Option.none = Except.ok r ∧
      r.Perm (profiles.map (fun p => IsoformDiff.mk p.1 (profileDiff rp p.2))) ∧
      List.Sorted diffLE r ∧
      ∀ p ∈ profiles, IsoformDiff.mk p.1 ((List.range rp.length).countP (fun i =>
        decide (rp.getD i 0 ≠ 0 ∧ (p.2).getD i 0 ≠ 0 ∧
          rp.getD i 0 ≠ (p.2).getD i 0))) ∈ r := by
  refine ⟨_, match_profile_ok rp profiles Option.none h1 h2, ?_, ?_, ?_⟩
  · rw [filterMap_hint_none]
    exact List.perm_insertionSort _ _
  · exact List.sorted_insertionSort _ _
  · intro p hp
    rw [← profileDiff_eq_count rp p.2 (h2 p hp)]
    rw [List.mem_insertionSort, filterMap_hint_none]
    exact List.mem_map_of_mem _ hp

/-- Witness for the amended claim C1 at the second `test_some_equals` case:
the hypotheses hold and the ranking is as the test expects. -/
theorem match_profile_amended_ranking_witness :
    ∃ r, match_profile [0, 1, 1, -1, 0] profilesSomeEq Option.none = Except.ok r ∧
      r.Perm (profilesSomeEq.map (fun p => IsoformDiff.mk p.1 (profileDiff [0, 1, 1, -1, 0] p.2))) ∧
      List.Sorted diffLE r ∧
      ∀ p ∈ profilesSomeEq, IsoformDiff.mk p.1 ((List.range (5 : Nat)).countP (fun i =>
        decide (([0, 1, 1, -1, 0] : List Int).getD i 0 ≠ 0 ∧ (p.2).getD i 0 ≠ 0 ∧
          ([0, 1, 1, -1, 0] : List Int).getD i 0 ≠ (p.2).getD i 0))) ∈ r :=
  match_profile_amended_ranking [0, 1, 1, -1, 0] profilesSomeEq (by decide) (by decide)

/-- Claim C2: whenever `match_profile` succeeds, `find_matching_isoforms` on
the same inputs returns exactly the isoform ids whose distance is 0, sorted
ascending by id. -/
theorem find_matching_isoforms_zero_distance (rp : List Int)
    (profiles : List (Nat × List Int)) (hint : Option (List Nat))
    (r : List IsoformDiff) (h : match_profile rp profiles hint = Except.ok r) :
    ∃ ids, find_matching_isoforms rp profiles hint = Except.ok ids ∧
      List.Sorted (· ≤ ·) ids ∧
      ∀ i : Nat, i ∈ ids ↔ IsoformDiff.mk i 0 ∈ r := by
  refine ⟨List.insertionSort (· ≤ ·)
    ((r.filter (fun d => decide (d.diff = 0))).map IsoformDiff.isoform_id), ?_, ?_, ?_⟩
  · unfold find_matching_isoforms
    rw [h]
    rfl
  · exact List.sorted_insertionSort _ _
  · intro i
    rw [List.mem_insertionSort]
    simp only [List.mem_map, List.mem_filter, decide_eq_true_eq]
    constructor
    · rintro ⟨d, ⟨hdr, hd0⟩, rfl⟩
      cases d with
      | mk di dd => cases hd0; exact hdr
    · intro hir
      exact ⟨IsoformDiff.mk i 0, ⟨hir, rfl⟩, rfl⟩

/-- Witness for claim C2 at the first `test_all_equals` case. -/
theorem find_matching_isoforms_zero_distance_witness :
    ∃ ids, find_matching_isoforms [-1, 1, -1, 0] profilesAllEq Option.none = Except.ok ids ∧
      List.Sorted (· ≤ ·) ids ∧
      ∀ i : Nat, i ∈ ids ↔ IsoformDiff.mk i 0 ∈ [IsoformDiff.mk 1 0, IsoformDiff.mk 2 0] :=
  find_matching_isoforms_zero_distance [-1, 1, -1, 0] profilesAllEq Option.none
    [IsoformDiff.mk 1 0, IsoformDiff.mk 2 0] rfl

/-- Claim C3: `match_profile` rejects degenerate input with the
profile-length-mismatch error instead of returning a ranking — both for an
empty read profile and whenever some isoform profile's length differs from
the read profile's. -/
theorem match_profile_rejects_degenerate (rp : List Int)
    (profiles : List (Nat × List Int)) (hint : Option (List Nat)) :
    match_profile [] profiles hint = Except.error ProfileError.profile_length_mismatch ∧
    (∀ p ∈ profiles, p.2.length ≠ rp.length →
      match_profile rp profiles hint = Except.error ProfileError.profile_length_mismatch) := by
  constructor
  · unfold match_profile
    rw [if_pos]
    left
    rfl
  · intro p hp hlen
    unfold match_profile
    rw [if_pos]
    right
    rw [List.any_eq_true]
    exact ⟨p, hp, by simpa using hlen⟩

/-- Witness for claim C3 at the `test_empty` and `test_different_length`
cases: the empty read profile fails, and read profile `[-1,1,-1,0]` against
`profilesDiffLen` (whose id2 profile has length 3, not 4) fails. -/
theorem match_profile_rejects_degenerate_witness :
    (match_profile [] [(1, [1]), (2, [-1])] Option.none
      = Except.error ProfileError.profile_length_mismatch) ∧
    ((2, [-1, 1, -2]) ∈ profilesDiffLen ∧ ([-1, 1, -2] : List Int).length ≠ 4) ∧
    match_profile [-1, 1, -1, 0] profilesDiffLen (Option.some [2, 3])
      = Except.error ProfileError.profile_length_mismatch :=
  ⟨(match_profile_rejects_degenerate [] [(1, [1]), (2, [-1])] Option.none).1,
   ⟨by decide, by decide⟩,
   (match_profile_rejects_degenerate [-1, 1, -1, 0] profilesDiffLen
      (Option.some [2, 3])).2 (2, [-1, 1, -2]) (by decide) (by decide)⟩

/-- Claim C4: with a hint supplied, every entry of the `match_profile`
result (and every id of the `find_matching_isoforms` result) belongs to the
hint, and every candidate inside the hint appears with its true distance —
so the best-scoring isoforms within the hint are returned even when a
better-scoring isoform exists outside it. -/
theorem match_profile_hint_restriction (rp : List Int)
    (profiles : List (Nat × List Int)) (hl : List Nat) (r : List IsoformDiff)
    (h : match_profile rp profiles (Option.some hl) = Except.ok r) :
    (∀ d ∈ r, d.isoform_id ∈ hl) ∧
    (∀ p ∈ profiles, p.1 ∈ hl → IsoformDiff.mk p.1 (profileDiff rp p.2) ∈ r) ∧
    (∀ ids, find_matching_isoforms rp profiles (Option.some hl) = Except.ok ids →
      ∀ i ∈ ids, i ∈ hl) := by
  have hr := match_profile_ok_inv rp profiles (Option.some hl) r h
  have hmem : ∀ d ∈ r, d.isoform_id ∈ hl := by
    intro d hd
    rw [hr, List.mem_insertionSort, List.mem_filterMap] at hd
    obtain ⟨p, hp, hsome⟩ := hd
    by_cases hh : inHint (Option.some hl) p.1 = true
    · rw [if_pos hh] at hsome
      cases hsome
      simpa [inHint] using hh
    · rw [if_neg hh] at hsome
      cases hsome
  refine ⟨hmem, ?_, ?_⟩
  · intro p hp hph
    rw [hr, List.mem_insertionSort, List.mem_filterMap]
    refine ⟨p, hp, ?_⟩
    rw [if_pos (by simpa [inHint] using hph)]
  · intro ids hids i hi
    unfold find_matching_isoforms at hids
    rw [h] at hids
    simp only [Except.map] at hids
    cases hids
    rw [List.mem_insertionSort, List.mem_map] at hi
    obtain ⟨d, hd, hdi⟩ := hi
    rw [List.mem_filter] at hd
    exact hdi ▸ hmem d hd.1

/-- Witness for claim C4 at the first `test_hint` case: hint `[2, 3]` keeps
only ids 2 and 3 (at distances 1 and 2) although isoform 1 outside the hint
scores 0, strictly better. -/
theorem match_profile_hint_restriction_witness :
    profileDiff [-1, 1, 1, 0] [-1, 1, 1, -1] = 0 ∧
    ((∀ d ∈ [IsoformDiff.mk 2 1, IsoformDiff.mk 3 2], d.isoform_id ∈ [2, 3]) ∧
     (∀ p ∈ profilesHint, p.1 ∈ [2, 3] →
        IsoformDiff.mk p.1 (profileDiff [-1, 1, 1, 0] p.2)
          ∈ [IsoformDiff.mk 2 1, IsoformDiff.mk 3 2]) ∧
     (∀ ids, find_matching_isoforms [-1, 1, 1, 0] profilesHint (Option.some [2, 3])
        = Except.ok ids → ∀ i ∈ ids, i ∈ [2, 3])) :=
  ⟨by decide,
   match_profile_hint_restriction [-1, 1, 1, 0] profilesHint [2, 3]
     [IsoformDiff.mk 2 1, IsoformDiff.mk 3 2] rfl⟩

/-! ## Claims about the junction comparator -/

/-- Claim C6: comparing read junctions `[(10,50),(150,200)]` over region
`(0,300)` against isoform junctions `[(10,51),(80,100),(150,200),(225,240)]`
over region `(0,310)` with delta 3 yields exactly two events, both intron
retention — one per isoform intron missed by the read but covered by the
read region (`test_missed_intron_in`). -/
theorem compare_junctions_missed_introns :
    compare_junctions 3 10 5 knownIntrons [(10, 50), (150, 200)] (0, 300)
        [(10, 51), (80, 100), (150, 200), (225, 240)] (0, 310)
      = [mkEv MatchEventSubtype.intron_retention 80,
         mkEv MatchEventSubtype.intron_retention 225] ∧
    (compare_junctions 3 10 5 knownIntrons [(10, 50), (150, 200)] (0, 300)
        [(10, 51), (80, 100), (150, 200), (225, 240)] (0, 310)).length = 2 ∧
    ∀ e ∈ compare_junctions 3 10 5 knownIntrons [(10, 50), (150, 200)] (0, 300)
        [(10, 51), (80, 100), (150, 200), (225, 240)] (0, 310),
      e.event_type = MatchEventSubtype.intron_retention :=
  ⟨rfl, rfl, by decide⟩

/-- Claim C7: a disagreeing junction pair whose boundary shifts are both
within the configured tolerance is classified as an intron shift, and on
the repository's own test input — read junction `(50,75)` against isoform
junction `(45,70)` under `Params(3)` (`max_intron_shift = 10`) — exactly
one event, an intron shift, is returned. -/
theorem detect_contradiction_intron_shift (delta maxShift : Nat) (rr ir : J)
    (rj ij : J) (h1 : Nat.dist rj.1 ij.1 ≤ delta) (h2 : Nat.dist rj.2 ij.2 ≤ delta) :
    detect_contradiction_type delta maxShift rr [rj] ir [ij] [((0, 0), (0, 0))]
      = [mkEv MatchEventSubtype.intron_shift (min rj.1 ij.1)] ∧
    detect_contradiction_type 3 10 (0, 200) [(50, 75)] (0, 200) [(45, 70)]
        [((0, 0), (0, 0))]
      = [mkEv MatchEventSubtype.intron_shift 45] := by
  constructor
  · have hcl : classifyContradiction delta maxShift rj ij
        = MatchEventSubtype.intron_shift := by
      unfold classifyContradiction
      rw [if_pos]
      exact ⟨le_trans h1 (le_max_left _ _), le_trans h2 (le_max_left _ _)⟩
    unfold detect_contradiction_type
    simp [hcl]
  · rfl

/-- Witness for claim C7: the pair `(50,75)` against `(49,74)` has both
boundary shifts within delta 3, and is classified as an intron shift. -/
theorem detect_contradiction_intron_shift_witness :
    Nat.dist 50 49 ≤ 3 ∧ Nat.dist 75 74 ≤ 3 ∧
    (detect_contradiction_type 3 10 (0, 200) [(50, 75)] (0, 200) [(49, 74)]
        [((0, 0), (0, 0))]
      = [mkEv MatchEventSubtype.intron_shift (min 50 49)] ∧
     detect_contradiction_type 3 10 (0, 200) [(50, 75)] (0, 200) [(45, 70)]
        [((0, 0), (0, 0))]
      = [mkEv MatchEventSubtype.intron_shift 45]) :=
  ⟨by decide, by decide,
   detect_contradiction_intron_shift 3 10 (0, 200) (0, 200) (50, 75) (49, 74)
     (by decide) (by decide)⟩

/-- Every event emitted by the junction merge sits at or right of any
common lower bound of the remaining junction starts. -/
theorem collect_pos_lb (delta maxShift : Nat) (known : List J) (readR : J) :
    ∀ (fuel : Nat) (flag : Bool) (rl il : List J) (b : Nat),
      (∀ j ∈ rl, b ≤ j.1) → (∀ j ∈ il, b ≤ j.1) →
      ∀ e ∈ collectEventsF delta maxShift known readR fuel flag rl il, b ≤ e.pos := by
  intro fuel
  induction fuel with
  | zero =>
    intro flag rl il b hr hi e he
    simp [collectEventsF] at he
  | succ n ih =>
    intro flag rl il b hr hi e he
    cases rl with
    | nil =>
      cases il with
      | nil => simp [collectEventsF] at he
      | cons ij itl =>
        rw [collectEventsF] at he
        have hitl : ∀ j ∈ itl, b ≤ j.1 :=
          fun j hj => hi j (List.mem_cons_of_mem ij hj)
        split at he
        · rcases List.mem_cons.mp he with rfl | he'
          · exact hi ij (List.mem_cons_self ij itl)
          · exact ih flag [] itl b (by simp) hitl e he'
        · exact ih flag [] itl b (by simp) hitl e he
    | cons rj rtl =>
      have hb_rj : b ≤ rj.1 := hr rj (List.mem_cons_self rj rtl)
      have hrtl : ∀ j ∈ rtl, b ≤ j.1 :=
        fun j hj => hr j (List.mem_cons_of_mem rj hj)
      cases il with
      | nil =>
        rw [collectEventsF] at he
        rcases List.mem_cons.mp he with rfl | he'
        · exact hb_rj
        · exact ih flag rtl [] b hrtl (by simp) e he'
      | cons ij itl =>
        have hb_ij : b ≤ ij.1 := hi ij (List.mem_cons_self ij itl)
        have hitl : ∀ j ∈ itl, b ≤ j.1 :=
          fun j hj => hi j (List.mem_cons_of_mem ij hj)
        have hb_min : b ≤ min rj.1 ij.1 := le_min hb_rj hb_ij
        rw [collectEventsF] at he
        split at he
        · exact ih false rtl itl b hrtl hitl e he
        · split at he
          · split at he
            · rcases List.mem_cons.mp he with rfl | he'
              · exact hb_min
              · refine ih false rtl (itl.dropWhile (fun j => overlaps rj j)) b hrtl ?_ e he'
                intro j hj
                exact hitl j ((List.dropWhile_sublist _).subset hj)
            · split at he
              · rcases List.mem_cons.mp he with rfl | he'
                · exact hb_min
                · refine ih false (rtl.dropWhile (fun j => overlaps ij j)) itl b ?_ hitl e he'
                  intro j hj
                  exact hrtl j ((List.dropWhile_sublist _).subset hj)
              · rcases List.mem_cons.mp he with rfl | he'
                · exact hb_min
                · exact ih false rtl itl b hrtl hitl e he'
          · split at he
            · rcases List.mem_append.mp he with he' | he'
              · split at he'
                · rcases List.mem_cons.mp he' with rfl | he''
                  · exact hb_ij
                  · simp at he''
                · simp at he'
              · exact ih false (rj :: rtl) itl b hr hitl e he'
            · rcases List.mem_cons.mp he with rfl | he'
              · exact hb_rj
              · exact ih flag rtl (ij :: itl) b hrtl hi e he'

/-- The positions of the events emitted by the junction merge are
non-decreasing when both junction lists are sorted by start and every
junction is a well-formed interval. -/
theorem collect_pos_sorted (delta maxShift : Nat) (known : List J) (readR : J) :
    ∀ (fuel : Nat) (flag : Bool) (rl il : List J),
      List.Sorted (fun a b : J => a.1 ≤ b.1) rl → (∀ j ∈ rl, j.1 ≤ j.2) →
      List.Sorted (fun a b : J => a.1 ≤ b.1) il → (∀ j ∈ il, j.1 ≤ j.2) →
      List.Sorted (· ≤ ·)
        ((collectEventsF delta maxShift known readR fuel flag rl il).map MatchEvent.pos) := by
  intro fuel
  induction fuel with
  | zero =>
    intro flag rl il _ _ _ _
    simp [collectEventsF]
  | succ n ih =>
    intro flag rl il hrs hrw his hiw
    cases rl with
    | nil =>
      cases il with
      | nil => simp [collectEventsF]
      | cons ij itl =>
        have his' := his.of_cons
        have hiw' : ∀ j ∈ itl, j.1 ≤ j.2 := fun j hj => hiw j (List.mem_cons_of_mem ij hj)
        rw [collectEventsF]
        split
        · rw [List.map_cons]
          refine List.sorted_cons.mpr ⟨?_, ih flag [] itl (by simp) (by simp) his' hiw'⟩
          intro q hq
          obtain ⟨e, he, rfl⟩ := List.mem_map.mp hq
          exact collect_pos_lb delta maxShift known readR n flag [] itl ij.1 (by simp)
            (List.rel_of_sorted_cons his) e he
        · exact ih flag [] itl (by simp) (by simp) his' hiw'
    | cons rj rtl =>
      have hrs' := hrs.of_cons
      have hrw' : ∀ j ∈ rtl, j.1 ≤ j.2 := fun j hj => hrw j (List.mem_cons_of_mem rj hj)
      have hrj_wf : rj.1 ≤ rj.2 := hrw rj (List.mem_cons_self rj rtl)
      have hrtl_lb : ∀ j ∈ rtl, rj.1 ≤ j.1 := List.rel_of_sorted_cons hrs
      cases il with
      | nil =>
        rw [collectEventsF, List.map_cons]
        refine List.sorted_cons.mpr ⟨?_, ih flag rtl [] hrs' hrw' (by simp) (by simp)⟩
        intro q hq
        obtain ⟨e, he, rfl⟩ := List.mem_map.mp hq
        exact collect_pos_lb delta maxShift known readR n flag rtl [] rj.1 hrtl_lb
          (by simp) e he
      | cons ij itl =>
        have his' := his.of_cons
        have hiw' : ∀ j ∈ itl, j.1 ≤ j.2 := fun j hj => hiw j (List.mem_cons_of_mem ij hj)
        have hij_wf : ij.1 ≤ ij.2 := hiw ij (List.mem_cons_self ij itl)
        have hitl_lb : ∀ j ∈ itl, ij.1 ≤ j.1 := List.rel_of_sorted_cons his
        rw [collectEventsF]
        split
        · exact ih false rtl itl hrs' hrw' his' hiw'
        · split
          · split
            · rw [List.map_cons]
              refine List.sorted_cons.mpr ⟨?_, ih false rtl
                (itl.dropWhile (fun j => overlaps rj j)) hrs' hrw'
                (his'.sublist (List.dropWhile_sublist _))
                (fun j hj => hiw' j ((List.dropWhile_sublist _).subset hj))⟩
              intro q hq
              obtain ⟨e, he, rfl⟩ := List.mem_map.mp hq
              refine collect_pos_lb delta maxShift known readR n false rtl
                (itl.dropWhile (fun j => overlaps rj j)) (min rj.1 ij.1) ?_ ?_ e he
              · intro j hj
                exact le_trans (Nat.min_le_left _ _) (hrtl_lb j hj)
              · intro j hj
                exact le_trans (Nat.min_le_right _ _)
                  (hitl_lb j ((List.dropWhile_sublist _).subset hj))
            · split
              · rw [List.map_cons]
                refine List.sorted_cons.mpr ⟨?_, ih false
                  (rtl.dropWhile (fun j => overlaps ij j)) itl
                  (hrs'.sublist (List.dropWhile_sublist _))
                  (fun j hj => hrw' j ((List.dropWhile_sublist _).subset hj)) his' hiw'⟩
                intro q hq
                obtain ⟨e, he, rfl⟩ := List.mem_map.mp hq
                refine collect_pos_lb delta maxShift known readR n false
                  (rtl.dropWhile (fun j => overlaps ij j)) itl (min rj.1 ij.1) ?_ ?_ e he
                · intro j hj
                  exact le_trans (Nat.min_le_left _ _)
                    (hrtl_lb j ((List.dropWhile_sublist _).subset hj))
                · intro j hj
                  exact le_trans (Nat.min_le_right _ _) (hitl_lb j hj)
              · rw [List.map_cons]
                refine List.sorted_cons.mpr ⟨?_, ih false rtl itl hrs' hrw' his' hiw'⟩
                intro q hq
                obtain ⟨e, he, rfl⟩ := List.mem_map.mp hq
                refine collect_pos_lb delta maxShift known readR n false rtl itl
                  (min rj.1 ij.1) ?_ ?_ e he
                · intro j hj
                  exact le_trans (Nat.min_le_left _ _) (hrtl_lb j hj)
                · intro j hj
                  exact le_trans (Nat.min_le_right _ _) (hitl_lb j hj)
          · split
            · rename_i hlt
              split
              · rw [List.singleton_append, List.map_cons]
                refine List.sorted_cons.mpr ⟨?_, ih false (rj :: rtl) itl hrs hrw his' hiw'⟩
                intro q hq
                obtain ⟨e, he, rfl⟩ := List.mem_map.mp hq
                refine collect_pos_lb delta maxShift known readR n false (rj :: rtl) itl
                  ij.1 ?_ hitl_lb e he
                intro j hj
                rcases List.mem_cons.mp hj with rfl | hj'
                · omega
                · have := hrtl_lb j hj'
                  omega
              · rw [List.nil_append]
                exact ih false (rj :: rtl) itl hrs hrw his' hiw'
            · rename_i hnov hnlt
              have hnov' : ¬ (rj.1 ≤ ij.2 ∧ ij.1 ≤ rj.2) := by
                simpa [overlaps] using hnov
              have hlead : rj.2 < ij.1 := by omega
              rw [List.map_cons]
              refine List.sorted_cons.mpr ⟨?_, ih flag rtl (ij :: itl) hrs' hrw' his hiw⟩
              intro q hq
              obtain ⟨e, he, rfl⟩ := List.mem_map.mp hq
              refine collect_pos_lb delta maxShift known readR n flag rtl (ij :: itl)
                rj.1 hrtl_lb ?_ e he
              intro j hj
              rcases List.mem_cons.mp hj with rfl | hj'
              · omega
              · have := hitl_lb j hj'
                omega

/-- Claim C5: for ordered, well-formed junction lists, `compare_junctions`
never returns an empty list — at minimum the mono-exon or no-contradiction
event is emitted — and the emitted events appear in genomic order
(non-decreasing positions). -/
theorem compare_junctions_nonempty_ordered (delta maxShift minAbsenceOverlap : Nat)
    (known readJ isoJ : List J) (readR isoR : J)
    (hr1 : List.Sorted (fun a b : J => a.1 ≤ b.1) readJ)
    (hr2 : ∀ j ∈ readJ, j.1 ≤ j.2)
    (hi1 : List.Sorted (fun a b : J => a.1 ≤ b.1) isoJ)
    (hi2 : ∀ j ∈ isoJ, j.1 ≤ j.2) :
    compare_junctions delta maxShift minAbsenceOverlap known readJ readR isoJ isoR ≠ [] ∧
    List.Sorted (· ≤ ·) ((compare_junctions delta maxShift minAbsenceOverlap known
      readJ readR isoJ isoR).map MatchEvent.pos) := by
  constructor
  · unfold compare_junctions
    split
    · simp
    · split
      · simp
      · rename_i hne
        intro hemp
        rw [hemp] at hne
        simp at hne
  · unfold compare_junctions
    split
    · simp
    · split
      · simp
      · exact collect_pos_sorted delta maxShift known readR _ true readJ isoJ
          hr1 hr2 hi1 hi2

/-- Witness for claim C5 at the `test_extra_intron` case: the junction
lists are sorted well-formed intervals, and the comparison is non-empty
with ordered events. -/
theorem compare_junctions_nonempty_ordered_witness :
    (List.Sorted (fun a b : J => a.1 ≤ b.1) [(20, 50), (60, 100), (150, 200)] ∧
     List.Sorted (fun a b : J => a.1 ≤ b.1) [(20, 51), (150, 201)]) ∧
    (compare_junctions 1 10 5 knownIntrons [(20, 50), (60, 100), (150, 200)] (0, 300)
        [(20, 51), (150, 201)] (0, 290) ≠ [] ∧
     List.Sorted (· ≤ ·) ((compare_junctions 1 10 5 knownIntrons
        [(20, 50), (60, 100), (150, 200)] (0, 300)
        [(20, 51), (150, 201)] (0, 290)).map MatchEvent.pos)) :=
  ⟨⟨by decide, by decide⟩,
   compare_junctions_nonempty_ordered 1 10 5 knownIntrons
     [(20, 50), (60, 100), (150, 200)] [(20, 51), (150, 201)] (0, 300) (0, 290)
     (by decide) (by decide) (by decide) (by decide)⟩

/-! ## Claims about the alignment processor -/

theorem countTriple_append_unassigned (l : List ReadAssignmentR) (q : String)
    (t : String × Nat × Nat) :
    countTriple (l ++ [⟨q, false, Option.none⟩]) t = countTriple l t := by
  unfold countTriple
  rw [List.countP_append]
  simp

theorem countTriple_append_assigned (l : List ReadAssignmentR)
    (t0 t : String × Nat × Nat) :
    countTriple (l ++ [⟨t0.1, true, Option.some (t0.2.1, t0.2.2)⟩]) t
      = countTriple l t + (if t = t0 then 1 else 0) := by
  obtain ⟨q0, s0, e0⟩ := t0
  obtain ⟨q, s, e⟩ := t
  unfold countTriple
  rw [List.countP_append]
  congr 1
  simp only [List.countP_cons, List.countP_nil, Nat.zero_add]
  by_cases h : ((q, s, e) : String × Nat × Nat) = (q0, s0, e0)
  · obtain ⟨h1, h2, h3⟩ : q = q0 ∧ s = s0 ∧ e = e0 := by simpa [Prod.ext_iff] using h
    subst h1
    subst h2
    subst h3
    simp
  · rw [if_neg h]
    have hne : ¬ (q0 = q ∧ s0 = s ∧ e0 = e) := by
      rintro ⟨h1, h2, h3⟩
      exact h (by simp [h1, h2, h3])
    simp only [decide_eq_true_eq]
    simp [hne]

theorem processAlignment_dedup (ns : Bool) (st : ProcState) (a : AlignmentRec)
    (h : DedupInv st) : DedupInv (processAlignment ns st a) := by
  unfold processAlignment
  split
  · intro t
    obtain ⟨h1, h2⟩ := h t
    refine ⟨?_, fun hn => ?_⟩
    · simpa [countTriple_append_unassigned] using h1
    · simpa [countTriple_append_unassigned] using h2 hn
  · split
    · exact h
    · split
      · exact h
      · split
        · exact h
        · split
          · exact h
          · rename_i t0 heq hmem
            intro t
            obtain ⟨h1, h2⟩ := h t
            constructor
            · show countTriple (st.assignment_storage ++
                [⟨t0.1, true, Option.some (t0.2.1, t0.2.2)⟩]) t ≤ 1
              rw [countTriple_append_assigned]
              by_cases ht : t = t0
              · subst ht
                rw [if_pos rfl]
                have := h2 hmem
                omega
              · rw [if_neg ht]
                omega
            · intro hn
              show countTriple (st.assignment_storage ++
                [⟨t0.1, true, Option.some (t0.2.1, t0.2.2)⟩]) t = 0
              have ht : t ≠ t0 := by
                intro hh
                exact hn (hh ▸ List.mem_cons_self t0 st.processed_reads)
              have hn' : t ∉ st.processed_reads := by
                intro hh
                exact hn (List.mem_cons_of_mem t0 hh)
              rw [countTriple_append_assigned, if_neg ht]
              simpa using h2 hn'

theorem foldl_dedup (ns : Bool) (l : List AlignmentRec) :
    ∀ st : ProcState, DedupInv st →
      DedupInv (List.foldl (processAlignment ns) st l) := by
  induction l with
  | nil => intro st h; simpa using h
  | cons a l ih =>
    intro st h
    rw [List.foldl_cons]
    exact ih _ (processAlignment_dedup ns st a h)

/-- Claim C9: within one file, at most one `ReadAssignment` is stored per
distinct `(read_id, read_start, read_end)` triple, and once a triple has
been recorded in `processed_reads`, any later alignment of the same read
with the same bounds leaves the state untouched — no output, no assigner
call. -/
theorem process_dedup_triple (ns : Bool) (alignments : List AlignmentRec)
    (t : String × Nat × Nat) :
    countTriple (process_single_file ns alignments).assignment_storage t ≤ 1 ∧
    (∀ (st : ProcState) (a : AlignmentRec), a.reference_id ≠ -1 →
      tripleOf a = Option.some t → t ∈ st.processed_reads →
      processAlignment ns st a = st) := by
  constructor
  · have hinit : DedupInv ⟨[], [], []⟩ := by
      intro t'
      constructor <;> simp [countTriple]
    exact (foldl_dedup ns alignments ⟨[], [], []⟩ hinit t).1
  · intro st a h1 h2 h3
    unfold processAlignment
    rw [if_neg h1]
    by_cases hs : a.is_supplementary = true
    · rw [if_pos hs]
    · rw [if_neg hs]
      by_cases hsec : (ns && a.is_secondary) = true
      · rw [if_pos hsec]
      · rw [if_neg hsec]
        rw [h2]
        show (if t ∈ st.processed_reads then st else _) = st
        rw [if_pos h3]

/-- Witness for claim C9: the same mapped alignment fetched twice is stored
once, and the step on an already-processed triple is the identity. -/
theorem process_dedup_triple_witness :
    countTriple (process_single_file false
        [⟨"r", 0, false, false, [(10, 20), (30, 40)]⟩,
         ⟨"r", 0, false, false, [(10, 20), (30, 40)]⟩]).assignment_storage
      ("r", 10, 40) ≤ 1 ∧
    processAlignment false ⟨[("r", 10, 40)], [], []⟩
        ⟨"r", 0, false, false, [(10, 20), (30, 40)]⟩
      = ⟨[("r", 10, 40)], [], []⟩ :=
  ⟨(process_dedup_triple false
      [⟨"r", 0, false, false, [(10, 20), (30, 40)]⟩,
       ⟨"r", 0, false, false, [(10, 20), (30, 40)]⟩] ("r", 10, 40)).1,
   (process_dedup_triple false [] ("r", 10, 40)).2 ⟨[("r", 10, 40)], [], []⟩
     ⟨"r", 0, false, false, [(10, 20), (30, 40)]⟩ (by decide) rfl
     (List.mem_cons_self _ _)⟩

/-- Claim C8: a mapped, non-filtered alignment that decoded to zero exonic
blocks is dropped — the processing step leaves the state unchanged (so
nothing is appended to the assignment storage and the assigner is never
invoked) and the fold simply continues with the remaining alignments. -/
theorem process_drops_noexons (ns : Bool) (st : ProcState) (a : AlignmentRec)
    (rest : List AlignmentRec) (h1 : a.reference_id ≠ -1)
    (h2 : a.is_supplementary = false) (h3 : (ns && a.is_secondary) = false)
    (h4 : a.read_exons = []) :
    processAlignment ns st a = st ∧
    (processAlignment ns st a).assignment_storage = st.assignment_storage ∧
    (processAlignment ns st a).assigner_calls = st.assigner_calls ∧
    List.foldl (processAlignment ns) st (a :: rest)
      = List.foldl (processAlignment ns) st rest := by
  have ht : tripleOf a = Option.none := by
    unfold tripleOf
    rw [h4]
  have hstep : processAlignment ns st a = st := by
    unfold processAlignment
    rw [if_neg h1, if_neg (by simp [h2]), if_neg (by simp [h3]), ht]
  exact ⟨hstep, by rw [hstep], by rw [hstep], by rw [List.foldl_cons, hstep]⟩

/-- Witness for claim C8: a mapped primary alignment with no decoded exons
leaves the empty state unchanged. -/
theorem process_drops_noexons_witness :
    ((5 : Int) ≠ -1) ∧
    (processAlignment false ⟨[], [], []⟩ ⟨"read1", 5, false, false, []⟩ = ⟨[], [], []⟩ ∧
     (processAlignment false ⟨[], [], []⟩
        ⟨"read1", 5, false, false, []⟩).assignment_storage = [] ∧
     (processAlignment false ⟨[], [], []⟩
        ⟨"read1", 5, false, false, []⟩).assigner_calls = [] ∧
     List.foldl (processAlignment false) ⟨[], [], []⟩
         [⟨"read1", 5, false, false, []⟩]
       = List.foldl (processAlignment false) ⟨[], [], []⟩ []) :=
  ⟨by decide,
   process_drops_noexons false ⟨[], [], []⟩ ⟨"read1", 5, false, false, []⟩ []
     (by decide) rfl rfl rfl⟩

/-- Claim C10: an unmapped alignment (`reference_id = -1`) still produces
output — `ReadAssignment(read_id, None)` is appended immediately, before
the supplementary/secondary filters, exon decoding and deduplication are
even consulted: the equation holds for every state and every such
alignment, whatever its flags, exons or deduplication status, and neither
`processed_reads` nor the assigner-call trace changes. -/
theorem process_unmapped_appended (ns : Bool) (st : ProcState) (a : AlignmentRec)
    (h : a.reference_id = -1) :
    processAlignment ns st a =
      { st with assignment_storage :=
          st.assignment_storage ++ [⟨a.query_name, false, Option.none⟩] } := by
  unfold processAlignment
  rw [if_pos h]

/-- Witness for claim C10: a supplementary, secondary, unmapped alignment
whose triple is already in `processed_reads` still appends the
assignment-less record — none of the filters fire first. -/
theorem process_unmapped_appended_witness :
    ((-1 : Int) = -1) ∧
    processAlignment true ⟨[("r2", 10, 20)], [], []⟩
        ⟨"r2", -1, true, true, [(10, 20)]⟩
      = ⟨[("r2", 10, 20)], [⟨"r2", false, Option.none⟩], []⟩ :=
  ⟨rfl,
   process_unmapped_appended true ⟨[("r2", 10, 20)], [], []⟩
     ⟨"r2", -1, true, true, [(10, 20)]⟩ rfl⟩

/-! ## Model validation against the remaining unit tests -/

example :
    compare_junctions 1 10 5 knownIntrons [] (20, 200) [] (20, 290)
      = [mkEv MatchEventSubtype.mono_exon_match 20] := rfl

example :
    compare_junctions 1 10 5 knownIntrons [] (20, 200) [(150, 170)] (20, 290)
      = [mkEv MatchEventSubtype.unspliced_intron_retention 20] := rfl

example :
    compare_junctions 1 10 5 knownIntrons [] (20, 100) [(50, 170)] (20, 290)
      = [mkEv MatchEventSubtype.incomplete_intron_retention_right 20] := rfl

example :
    compare_junctions 1 10 5 knownIntrons [] (150, 320) [(50, 170)] (20, 290)
      = [mkEv MatchEventSubtype.incomplete_intron_retention_left 150] := rfl

example :
    compare_junctions 1 10 5 knownIntrons [] (100, 150) [(50, 170)] (20, 290)
      = [mkEv MatchEventSubtype.mono_exonic 100] := rfl

example :
    compare_junctions 1 10 5 knownIntrons [] (20, 55) [(50, 170)] (20, 290)
      = [mkEv MatchEventSubtype.mono_exonic 20] := rfl

example :
    compare_junctions 3 10 5 knownIntrons [(1, 10), (15, 20)] (0, 30)
        [(2, 10), (15, 19)] (0, 40)
      = [mkEv MatchEventSubtype.none 0] := rfl

example :
    compare_junctions 2 10 5 knownIntrons [(15, 20), (25, 35)] (10, 40)
        [(1, 10), (15, 21), (25, 34)] (0, 40)
      = [mkEv MatchEventSubtype.none 10] := rfl

example :
    compare_junctions 3 10 5 knownIntrons
        [(1, 100), (150, 200), (250, 360), (380, 390)] (0, 400)
        [(3, 100), (150, 201)] (0, 249)
      = [mkEv MatchEventSubtype.extra_intron_flanking_right 250,
         mkEv MatchEventSubtype.extra_intron_flanking_right 380] := rfl

example :
    compare_junctions 3 10 5 knownIntrons [(1, 100), (150, 200), (250, 360)] (0, 400)
        [(251, 361)] (201, 405)
      = [mkEv MatchEventSubtype.extra_intron_flanking_left 1,
         mkEv MatchEventSubtype.extra_intron_flanking_left 150] := rfl

example :
    compare_junctions 1 10 5 knownIntrons [(20, 50), (60, 100), (150, 200)] (0, 300)
        [(20, 51), (150, 201)] (0, 290)
      = [mkEv MatchEventSubtype.extra_intron 60] := rfl

example :
    compare_junctions 3 10 5 knownIntrons [(20, 40), (78, 112), (150, 200)] (0, 300)
        [(20, 41), (150, 201)] (0, 290)
      = [mkEv MatchEventSubtype.extra_intron_known 78] := rfl

example :
    compare_junctions 3 10 5 knownIntrons [(10, 50)] (0, 100)
        [(10, 25), (40, 49)] (0, 99)
      = [mkEv MatchEventSubtype.exon_skipping_novel_intron 10] := rfl

example :
    compare_junctions 1 10 5 knownIntrons [(1, 10), (15, 50)] (15, 50)
        [(1, 49)] (1, 49)
      = [mkEv MatchEventSubtype.exon_gain_novel 1] := rfl

example :
    match_profile [-1, 1, -1, 0] [(1, [-1, 1, -1, -1]), (2, [1, 1, 1, -1])] Option.none
      = Except.ok [IsoformDiff.mk 1 0, IsoformDiff.mk 2 2] := rfl

example :
    match_profile [-1, 1, -1, 0]
        [(1, [-1, 1, 1, -2]), (2, [-1, -1, 1, -2]), (3, [-1, 1, -1, -2])]
        (Option.some [3])
      = Except.ok [IsoformDiff.mk 3 0] := rfl

example :
    find_matching_isoforms [-1, 1, 1, 0] profilesHint (Option.some [2, 3])
      = Except.ok [] := rfl
